import Mathlib

/-!
Shallow embedding of the alumni-portal backend (`server.js`): the data
model (mongoose schemas), the authentication helpers, and the route
handlers that the verified properties concern.  Mongo ObjectIds are
modelled as `Nat`; the document store is modelled as lists of records,
with the schema-level `unique` indexes enforced by the save operations.
External primitives (bcrypt hashing/comparison, jwt verification) are
opaque to the handlers, so they are passed in as function parameters.
-/

namespace AlumniPortal

/-- Mongo ObjectId, modelled as a natural number. -/
abbrev Id := Nat

/-- The payload of `jwt.sign({ userId }, secret, { expiresIn: '30d' })`:
a signed token bound to one account id.  Signature and expiry live in
the opaque verification function, so only the bound id is carried. -/
structure Token where
  userId : Id
deriving DecidableEq, Repr

/-- Source `generateToken`: mints a token bound to the given id. -/
def generateToken (userId : Id) : Token := ⟨userId⟩

/-- Source `UniversitySchema` (fields `name`, `slug`, `email` carry a
`unique` index; `password` stores the bcrypt digest). -/
structure University where
  id : Id
  name : String
  slug : String
  email : String
  password : String
  logo : String := ""
  description : String := ""
  createdAt : Nat := 0
deriving DecidableEq, Repr

/-- Source `UserSchema` (member account; `email` carries a `unique`
index, `status` is one of pending/approved/rejected, `graduationYear`
defaults to `null`, modelled as `none`). -/
structure User where
  id : Id
  name : String
  email : String
  password : String
  phone : String
  profilePhoto : String := ""
  role : String := "alumni"
  university : Option Id := none
  status : String := "pending"
  parentEmail : String := ""
  parentPhone : String := ""
  rollNumber : String := ""
  courseDegree : String := ""
  school : String := ""
  graduationYear : Option Int := none
  currentCity : String := ""
  hometown : String := ""
  company : String := ""
  designation : String := ""
  bio : String := ""
  createdAt : Nat := 0
deriving DecidableEq, Repr

/-- Source `PostSchema`.  The schema field `type` is a Lean keyword and
is rendered here as `postType`. -/
structure Post where
  id : Id
  title : String
  content : String
  author : Id
  university : Option Id := none
  image : String := ""
  postType : String := "general"
  likes : List Id := []
  createdAt : Nat := 0
  updatedAt : Nat := 0
deriving DecidableEq, Repr

/-- Source `CommentSchema`. -/
structure Comment where
  id : Id
  content : String
  author : Id
  post : Id
  createdAt : Nat := 0
deriving DecidableEq, Repr

/-- Source `WorkshopSchema` (`attendees` is an array of User refs). -/
structure Workshop where
  id : Id
  title : String
  description : String
  date : Nat
  time : String
  location : String := ""
  isOnline : Bool := false
  meetingLink : String := ""
  creator : Id
  university : Option Id := none
  attendees : List Id := []
  image : String := ""
  createdAt : Nat := 0
deriving DecidableEq, Repr

/-- Source `MessageSchema`. -/
structure Message where
  id : Id
  sender : Id
  receiver : Id
  content : String
  read : Bool := false
  createdAt : Nat := 0
deriving DecidableEq, Repr

/-- The whole document store: one partition (collection) per model. -/
structure AppState where
  universities : List University := []
  users : List User := []
  posts : List Post := []
  comments : List Comment := []
  workshops : List Workshop := []
  messages : List Message := []
deriving DecidableEq, Repr

/-! Slug derivation, from the register handler:
`const slug = name.toLowerCase().replace(/\s+/g, '_');` -/

/-- The character class `\s` of a JS regex: space, tab, line
terminators, and the Unicode space separators. -/
def isJsWs (c : Char) : Bool :=
  c = ' ' || c = '\t' || c = '\n' || c = '\x0b' || c = '\x0c' || c = '\r' ||
  c.val = 0xa0 || c.val = 0x1680 || (0x2000 ≤ c.val && c.val ≤ 0x200a) ||
  c.val = 0x2028 || c.val = 0x2029 || c.val = 0x202f || c.val = 0x205f ||
  c.val = 0x3000 || c.val = 0xfeff

/-- Global replacement of `/\s+/` by `'_'`: the boolean flag records
whether the previous character belonged to a whitespace run (in which
case further whitespace is swallowed rather than emitting another
underscore). -/
def collapseWsAux : Bool → List Char → List Char
  | _, [] => []
  | prevWs, c :: rest =>
    if isJsWs c then
      if prevWs then collapseWsAux true rest
      else '_' :: collapseWsAux true rest
    else c :: collapseWsAux false rest

/-- Source slug derivation: `name.toLowerCase().replace(/\s+/g, '_')`.
Lowercasing is per character (`Char.toLower`). -/
def slugOf (name : String) : String :=
  ⟨collapseWsAux false (name.data.map Char.toLower)⟩

/-! University routes. -/

/-- Outcome of `POST /api/university/register`. -/
inductive RegisterResult where
  /-- 400 `{error:'All fields required'}` -/
  | validationError
  /-- `university.save()` threw a duplicate-key error on one of the
  `unique` indexes (name, slug, email); the handler returns 500. -/
  | conflict
  /-- 201: the updated store, the issued token, and the created record. -/
  | ok (store : List University) (token : Token) (uni : University)
deriving DecidableEq, Repr

/-- The record the register handler saves. -/
def mkUniversity (newId : Id) (name slug email digest : String) : University :=
  { id := newId, name := name, slug := slug, email := email, password := digest }

/-- Source `POST /api/university/register` handler: requires all three
fields truthy, derives the slug, hashes the password, saves (the
`unique` indexes on name, slug and email make the save fail on any
duplicate), then issues a token bound to the new record's id. -/
def registerUniversity (hash : String → String) (newId : Id)
    (unis : List University) (name email password : String) : RegisterResult :=
  if name = "" ∨ email = "" ∨ password = "" then .validationError
  else if unis.any (fun u => u.name == name || u.slug == slugOf name || u.email == email) then
    .conflict
  else
    .ok (unis ++ [mkUniversity newId name (slugOf name) email (hash password)])
      (generateToken newId)
      (mkUniversity newId name (slugOf name) email (hash password))

/-! Member (alumni) auth routes. -/

/-- Outcome of the login handlers. -/
inductive LoginResult where
  /-- 401 `{error:'Invalid credentials'}` -/
  | invalidCredentials
  /-- 403 `{error:'Your account has been rejected'}` -/
  | rejected
  /-- 200 `{message:'Login successful', token, user}` -/
  | success (token : Token) (user : User)
deriving DecidableEq, Repr

/-- `User.findOne({ email })`: first stored user with that email. -/
def findUserByEmail (users : List User) (email : String) : Option User :=
  users.find? (fun u => u.email == email)

/-- Source `POST /api/auth/login` handler.  `verify` is
`bcrypt.compare` (plaintext first, stored digest second).  The
credential check (`!user || !compare`) runs before the status check. -/
def loginUser (verify : String → String → Bool) (users : List User)
    (email password : String) : LoginResult :=
  match findUserByEmail users email with
  | none => .invalidCredentials
  | some user =>
    if !(verify password user.password) then .invalidCredentials
    else if user.status == "rejected" then .rejected
    else .success (generateToken user.id) user

/-- The fields of the signup request body that matter here: the eight
fields the handler destructures, plus a `status` field that a client
may submit but that the handler never reads. -/
structure SignupBody where
  name : String
  email : String
  password : String
  phone : String
  university : Option Id := none
  parentEmail : String := ""
  parentPhone : String := ""
  rollNumber : String := ""
  status : Option String := none
deriving Repr

/-- The member record the signup handler saves: the eight destructured
body fields plus the literal `status: 'pending'`. -/
def mkMember (newId : Id) (body : SignupBody) (digest : String) : User :=
  { id := newId, name := body.name, email := body.email, password := digest,
    phone := body.phone, university := body.university,
    parentEmail := body.parentEmail, parentPhone := body.parentPhone,
    rollNumber := body.rollNumber, status := "pending" }

/-- Source `POST /api/auth/signup` handler: hashes the password and
saves a record whose `status` is the literal `'pending'` (any status in
the request body is ignored).  The `unique` index on `email` makes the
save throw on a duplicate, which the handler maps to a 500 response —
modelled as `none`; on success (`some`) the updated store, a token
bound to the new id, and the created record are returned at once. -/
def signupUser (hash : String → String) (newId : Id) (users : List User)
    (body : SignupBody) : Option (List User × Token × User) :=
  if users.any (fun u => u.email == body.email) then
    none
  else
    some (users ++ [mkMember newId body (hash body.password)], generateToken newId,
      mkMember newId body (hash body.password))

/-! Authorization gate (`authMiddleware`). -/

/-- Outcome of the source `authMiddleware`. -/
inductive AuthResult where
  /-- 401 `{error:'No token provided'}` -/
  | noToken
  /-- 401 `{error:'Invalid token'}` -/
  | invalidToken
  /-- `req.userId = decoded.userId; next()` -/
  | authenticated (userId : Id)
deriving DecidableEq, Repr

/-- JS `String.prototype.split(' ')`: cut at every single space, keeping
empty parts. -/
def splitOnSpace : List Char → List (List Char)
  | [] => [[]]
  | c :: rest =>
    match splitOnSpace rest with
    | [] => [[]]
    | cur :: parts =>
      if c = ' ' then [] :: cur :: parts
      else (c :: cur) :: parts

/-- Token extraction `req.headers.authorization?.split(' ')[1]`: `none`
when the header is absent or has no second space-separated part. -/
def extractToken (header : Option String) : Option String :=
  header.bind (fun h => ((splitOnSpace h.data).get? 1).map (fun l => String.mk l))

/-- Source `authMiddleware`: extracts the token (a falsy result — an
absent or empty second part — gives `No token provided`), then calls
`jwt.verify`, modelled as the opaque `verifyTok` returning `none` on a
bad signature or expiry. -/
def authMiddleware (verifyTok : String → Option Id) (header : Option String) :
    AuthResult :=
  match extractToken header with
  | none => .noToken
  | some t =>
    if t = "" then .noToken
    else
      match verifyTok t with
      | none => .invalidToken
      | some id => .authenticated id

/-! Admin routes: approve / reject. -/

/-- Source `PUT /api/admin/approve-user/:userId`:
`User.findByIdAndUpdate(userId, { status: 'approved' })` — an
unconditional single-field update (a no-op when the id is absent). -/
def approveUser (st : AppState) (userId : Id) : AppState :=
  { st with users := st.users.map (fun u =>
      if u.id == userId then { u with status := "approved" } else u) }

/-- Source `PUT /api/admin/reject-user/:userId`:
`User.findByIdAndUpdate(userId, { status: 'rejected' })`. -/
def rejectUser (st : AppState) (userId : Id) : AppState :=
  { st with users := st.users.map (fun u =>
      if u.id == userId then { u with status := "rejected" } else u) }

/-- The two admin status operations. -/
inductive AdminOp where
  | approve
  | reject
deriving DecidableEq, Repr

/-- Dispatch one admin operation on a target member id. -/
def applyAdminOp (userId : Id) (st : AppState) (op : AdminOp) : AppState :=
  match op with
  | .approve => approveUser st userId
  | .reject => rejectUser st userId

/-- The status literal each admin operation writes. -/
def opStatus : AdminOp → String
  | .approve => "approved"
  | .reject => "rejected"

/-- The stored status of the member with the given id
(`User.findById(id).status`). -/
def memberStatus (st : AppState) (userId : Id) : Option String :=
  (st.users.find? (fun u => u.id == userId)).map User.status

/-! Workshop registration. -/

/-- Source `POST /api/workshops/:workshopId/register`:
`Workshop.findByIdAndUpdate(workshopId, { $push: { attendees: req.userId } })`
— `$push` appends to the array unconditionally (no dedup; a no-op when
the id is absent). -/
def registerForWorkshop (workshops : List Workshop) (workshopId userId : Id) :
    List Workshop :=
  workshops.map
    (fun w => if w.id == workshopId then { w with attendees := w.attendees ++ [userId] } else w)

/-! Directory search. -/

/-- Query string of `GET /api/users/directory/:universityId`; absent
parameters are `none`, and the handler treats an empty string as absent
(JS truthiness of `if (param)`). -/
structure DirectoryQuery where
  graduationYear : Option String := none
  currentCity : Option String := none
  company : Option String := none
  designation : Option String := none
deriving Repr

/-- Leading decimal-digit prefix of a character list, if nonempty. -/
def leadingDigits (l : List Char) : Option Nat :=
  let ds := l.takeWhile Char.isDigit
  if ds = [] then none
  else some (ds.foldl (fun a c => a * 10 + (c.toNat - '0'.toNat)) 0)

/-- JS `parseInt` (base 10): skip leading whitespace, optional sign,
then the longest digit prefix; `none` models `NaN`. -/
def parseIntJs (s : String) : Option Int :=
  match s.data.dropWhile (fun c => isJsWs c) with
  | '-' :: rest => (leadingDigits rest).map (fun n => -(n : Int))
  | '+' :: rest => (leadingDigits rest).map (fun n => (n : Int))
  | t => (leadingDigits t).map (fun n => (n : Int))

/-- Mongo equality match of stored `graduationYear` (`none` = `null`)
against `parseInt(param)`: a `NaN` query value matches no document. -/
def gradYearMatches (param : String) (stored : Option Int) : Bool :=
  match parseIntJs param with
  | none => false
  | some n => stored == some n

/-- The query object the directory handler builds:
`{ university, status: 'approved' }` plus one equality constraint per
truthy query parameter. -/
def directoryFilter (universityId : Id) (q : DirectoryQuery) (u : User) : Bool :=
  (u.university == some universityId) && (u.status == "approved") &&
  (match q.graduationYear with
   | none => true
   | some s => if s = "" then true else gradYearMatches s u.graduationYear) &&
  (match q.currentCity with
   | none => true
   | some s => if s = "" then true else u.currentCity == s) &&
  (match q.company with
   | none => true
   | some s => if s = "" then true else u.company == s) &&
  (match q.designation with
   | none => true
   | some s => if s = "" then true else u.designation == s)

/-- Source `GET /api/users/directory/:universityId`:
`User.find(query).select(...).limit(50)` (the projection keeps the
fields the claims speak about, so records are kept whole here). -/
def directorySearch (users : List User) (universityId : Id) (q : DirectoryQuery) :
    List User :=
  (users.filter (fun u => directoryFilter universityId q u)).take 50

/-! Statement-level vocabulary and concrete fixtures. -/

/-- Two member records agreeing on every field except possibly
`status`: the frame of the admin status updates. -/
def agreesExceptStatus (u v : User) : Prop :=
  v.id = u.id ∧ v.name = u.name ∧ v.email = u.email ∧ v.password = u.password ∧
  v.phone = u.phone ∧ v.profilePhoto = u.profilePhoto ∧ v.role = u.role ∧
  v.university = u.university ∧ v.parentEmail = u.parentEmail ∧
  v.parentPhone = u.parentPhone ∧ v.rollNumber = u.rollNumber ∧
  v.courseDegree = u.courseDegree ∧ v.school = u.school ∧
  v.graduationYear = u.graduationYear ∧ v.currentCity = u.currentCity ∧
  v.hometown = u.hometown ∧ v.company = u.company ∧
  v.designation = u.designation ∧ v.bio = u.bio ∧ v.createdAt = u.createdAt

/-- A concrete, invertible stand-in for the opaque bcrypt hash, used
only to instantiate theorems at concrete inputs. -/
def hashConcrete (p : String) : String := p ++ "#"

/-- The matching stand-in for `bcrypt.compare`. -/
def verifyConcrete (p digest : String) : Bool := digest == p ++ "#"

/-- A concrete stand-in for `jwt.verify` accepting exactly one token. -/
def verifyTokConcrete (t : String) : Option Id :=
  if t == "tok" then some 7 else none

/-- A stored member whose account has been rejected. -/
def uRejected : User :=
  { id := 1, name := "R", email := "r@x", password := "right#", phone := "1",
    status := "rejected" }

/-- A stored member still awaiting approval. -/
def uPending : User :=
  { id := 2, name := "P", email := "p@x", password := "pw#", phone := "1",
    status := "pending" }

/-- An approved member of university 9, class of 2020. -/
def uDir : User :=
  { id := 3, name := "A", email := "a@y", password := "x", phone := "1",
    university := some 9, status := "approved", graduationYear := some 2020,
    currentCity := "Pune" }

/-- A directory query filtering on year 2020 and city Pune. -/
def qDir : DirectoryQuery :=
  { graduationYear := some "2020", currentCity := some "Pune" }

/-- A signup body that tries to smuggle in `status: 'approved'`. -/
def signupBodyApproved : SignupBody :=
  { name := "N", email := "n@x", password := "pw", phone := "1",
    status := some "approved" }

/-- The member record a signup with `signupBodyApproved` persists. -/
def uSigned : User := mkMember 5 signupBodyApproved (hashConcrete "pw")

/-- The record a registration of "My  Uni" creates. -/
def uniMy : University :=
  mkUniversity 1 "My  Uni" (slugOf "My  Uni") "u@e" (hashConcrete "pw")

/-- A stored workshop with no attendees yet. -/
def workshopOne : Workshop :=
  { id := 1, title := "t", description := "d", date := 0, time := "10",
    creator := 7 }

/-- A store holding the single pending member. -/
def stateOne : AppState := { users := [uPending] }

/-! Theorems. -/

/-- C1: in member login the credential check precedes the status check:
an unknown email, or a password failing verification against the stored
digest, yields 401 Invalid credentials whatever the stored status (in
particular for a rejected account, since no assumption on the status is
needed); 403 Your account has been rejected is returned exactly when
the credentials verify and the stored status is rejected. -/
theorem login_credential_check_precedes_status_check
    (verify : String → String → Bool) (users : List User) (email password : String) :
    (findUserByEmail users email = none →
      loginUser verify users email password = .invalidCredentials) ∧
    (∀ u, findUserByEmail users email = some u → verify password u.password = false →
      loginUser verify users email password = .invalidCredentials) ∧
    (∀ u, findUserByEmail users email = some u → verify password u.password = true →
      u.status = "rejected" → loginUser verify users email password = .rejected) ∧
    (loginUser verify users email password = .rejected →
      ∃ u, findUserByEmail users email = some u ∧ verify password u.password = true ∧
        u.status = "rejected") := by
  refine ⟨?_, ?_, ?_, ?_⟩
  · intro h; simp [loginUser, h]
  · intro u hu hv; simp [loginUser, hu, hv]
  · intro u hu hv hs; simp [loginUser, hu, hv, hs]
  · intro h
    unfold loginUser at h
    cases hf : findUserByEmail users email with
    | none => rw [hf] at h; simp at h
    | some u =>
      rw [hf] at h
      by_cases hv : verify password u.password = true
      · by_cases hs : u.status = "rejected"
        · exact ⟨u, rfl, hv, hs⟩
        · simp [hv, hs] at h
      · rw [Bool.not_eq_true] at hv
        simp [hv] at h

/-- Witness for C1 at a concrete rejected account: the wrong password
is answered 401 Invalid credentials, the right one 403 rejected. -/
theorem login_credential_check_precedes_status_check_witness :
    loginUser verifyConcrete [uRejected] "r@x" "wrong" = .invalidCredentials ∧
    loginUser verifyConcrete [uRejected] "r@x" "right" = .rejected := by
  constructor
  · exact (login_credential_check_precedes_status_check verifyConcrete [uRejected]
      "r@x" "wrong").2.1 uRejected (by decide) (by decide)
  · exact (login_credential_check_precedes_status_check verifyConcrete [uRejected]
      "r@x" "right").2.2.1 uRejected (by decide) (by decide) (by decide)

/-- C2: a member whose stored status is pending and who presents
correct credentials is not blocked by the status check: login succeeds
and returns a session token bound to that member's id. -/
theorem login_pending_member_succeeds
    (verify : String → String → Bool) (users : List User) (email password : String)
    (u : User) (hu : findUserByEmail users email = some u)
    (hv : verify password u.password = true) (hs : u.status = "pending") :
    loginUser verify users email password = .success (generateToken u.id) u ∧
    (generateToken u.id).userId = u.id := by
  refine ⟨?_, rfl⟩
  simp [loginUser, hu, hv, hs]

/-- Witness for C2: the concrete pending member logs in and the token
is bound to its id 2. -/
theorem login_pending_member_succeeds_witness :
    loginUser verifyConcrete [uPending] "p@x" "pw" = .success (generateToken uPending.id) uPending ∧
    (generateToken uPending.id).userId = uPending.id := by
  exact login_pending_member_succeeds verifyConcrete [uPending] "p@x" "pw" uPending
    (by decide) (by decide) (by decide)

/-- C3: whatever status value the signup body carries, a successful
signup persists a record whose status is pending and whose password
field is the hash of the supplied password, and a token bound to the
new record's id is issued immediately. -/
theorem signup_forces_pending_status
    (hash : String → String) (newId : Id) (users : List User) (body : SignupBody)
    (st : List User) (tok : Token) (u : User)
    (h : signupUser hash newId users body = some (st, tok, u)) :
    u.status = "pending" ∧ u.password = hash body.password ∧
    tok = generateToken u.id ∧ u ∈ st := by
  unfold signupUser at h
  split at h
  · simp at h
  · simp only [Option.some.injEq, Prod.mk.injEq] at h
    obtain ⟨h1, h2, h3⟩ := h
    subst h1 h2 h3
    exact ⟨rfl, rfl, rfl, by simp⟩

/-- Witness for C3: a signup body carrying `status: 'approved'` still
persists a pending record with the hashed password. -/
theorem signup_forces_pending_status_witness :
    uSigned.status = "pending" ∧ uSigned.password = hashConcrete "pw" ∧
    generateToken 5 = generateToken uSigned.id ∧ uSigned ∈ [uSigned] := by
  exact signup_forces_pending_status hashConcrete 5 [] signupBodyApproved
    [uSigned] (generateToken 5) uSigned (by decide)

/-- Mapping an id-preserving function over the store commutes with
looking a member up by id. -/
theorem find_map_id_preserving (f : User → User) (hf : ∀ u, (f u).id = u.id) :
    ∀ (l : List User) (userId : Id),
      (l.map f).find? (fun u => u.id == userId) =
        (l.find? (fun u => u.id == userId)).map f := by
  intro l userId
  induction l with
  | nil => rfl
  | cons a t ih =>
    by_cases h : (a.id == userId) = true
    · simp [List.find?_cons, hf, h]
    · simp [List.find?_cons, hf, h, ih]

/-- The users list an admin operation produces: a single-field status
write on the record with the matching id. -/
theorem applyAdminOp_users (userId : Id) (st : AppState) (op : AdminOp) :
    (applyAdminOp userId st op).users = st.users.map
      (fun v => if v.id == userId then { v with status := opStatus op } else v) := by
  cases op <;> rfl

/-- A status write hits exactly the looked-up record. -/
theorem find_setStatus (users : List User) (userId : Id) (s : String) (u : User)
    (hu : users.find? (fun v => v.id == userId) = some u) :
    ((users.map (fun v => if v.id == userId then { v with status := s } else v)).find?
      (fun v => v.id == userId)).map User.status = some s := by
  rw [find_map_id_preserving (fun v => if v.id == userId then { v with status := s } else v)
    (by intro v; dsimp only; split <;> rfl) users userId, hu]
  have hpe : u.id = userId := by simpa using List.find?_some hu
  simp [hpe]

/-- Presence of a member id survives any sequence of admin
operations. -/
theorem find_isSome_foldl (userId : Id) :
    ∀ (ops : List AdminOp) (st : AppState),
      ((st.users.find? (fun u => u.id == userId)).isSome = true) →
      (((ops.foldl (applyAdminOp userId) st).users.find? (fun u => u.id == userId)).isSome = true) := by
  intro ops
  induction ops with
  | nil => intro st h; exact h
  | cons op t ih =>
    intro st h
    rw [List.foldl_cons]
    apply ih
    rw [applyAdminOp_users, find_map_id_preserving _ (by intro v; split <;> rfl)]
    simpa using h

/-- C4: `approve` unconditionally writes status approved and `reject`
status rejected, with no guard on the current status (the hypothesis
only requires the member to exist), and after any sequence of such
operations on the same id the final status is the one written by the
last operation applied. -/
theorem approve_reject_unconditional_last_write_wins (st : AppState) (userId : Id)
    (h : (st.users.find? (fun u => u.id == userId)).isSome = true) :
    memberStatus (approveUser st userId) userId = some "approved" ∧
    memberStatus (rejectUser st userId) userId = some "rejected" ∧
    ∀ (ops : List AdminOp) (op : AdminOp),
      memberStatus ((ops ++ [op]).foldl (applyAdminOp userId) st) userId =
        some (opStatus op) := by
  obtain ⟨u, hu⟩ := Option.isSome_iff_exists.mp h
  refine ⟨?_, ?_, ?_⟩
  · have := find_setStatus st.users userId "approved" u hu
    simpa [memberStatus, approveUser] using this
  · have := find_setStatus st.users userId "rejected" u hu
    simpa [memberStatus, rejectUser] using this
  · intro ops op
    rw [List.foldl_append, List.foldl_cons, List.foldl_nil]
    obtain ⟨v, hv⟩ := Option.isSome_iff_exists.mp (find_isSome_foldl userId ops st h)
    have := find_setStatus (ops.foldl (applyAdminOp userId) st).users userId (opStatus op) v hv
    rw [memberStatus, applyAdminOp_users]
    exact this

/-- Witness for C4: approving then rejecting the concrete pending
member leaves status rejected. -/
theorem approve_reject_unconditional_last_write_wins_witness :
    memberStatus (([AdminOp.approve] ++ [AdminOp.reject]).foldl (applyAdminOp 2) stateOne) 2 =
      some (opStatus AdminOp.reject) := by
  exact (approve_reject_unconditional_last_write_wins stateOne 2 (by decide)).2.2
    [AdminOp.approve] AdminOp.reject

/-- Pointwise relation between a list and its image under a map. -/
theorem forall₂_map_self {α : Type} {R : α → α → Prop} (f : α → α)
    (h : ∀ u, R u (f u)) : ∀ l : List α, List.Forall₂ R l (l.map f) := by
  intro l
  induction l with
  | nil => exact List.Forall₂.nil
  | cons a t ih => exact List.Forall₂.cons (h a) ih

/-- C10: approve and reject modify only the status field of the
targeted member: every other store partition is untouched, the users
list keeps its length and order, every record keeps every field except
possibly status, and records whose id differs from the target are
completely unchanged. -/
theorem approve_reject_modify_only_status (st : AppState) (userId : Id) :
    ((approveUser st userId).universities = st.universities ∧
     (approveUser st userId).posts = st.posts ∧
     (approveUser st userId).comments = st.comments ∧
     (approveUser st userId).workshops = st.workshops ∧
     (approveUser st userId).messages = st.messages ∧
     List.Forall₂ (fun u v => agreesExceptStatus u v ∧ (u.id ≠ userId → v = u))
       st.users (approveUser st userId).users) ∧
    ((rejectUser st userId).universities = st.universities ∧
     (rejectUser st userId).posts = st.posts ∧
     (rejectUser st userId).comments = st.comments ∧
     (rejectUser st userId).workshops = st.workshops ∧
     (rejectUser st userId).messages = st.messages ∧
     List.Forall₂ (fun u v => agreesExceptStatus u v ∧ (u.id ≠ userId → v = u))
       st.users (rejectUser st userId).users) := by
  refine ⟨⟨rfl, rfl, rfl, rfl, rfl, ?_⟩, ⟨rfl, rfl, rfl, rfl, rfl, ?_⟩⟩ <;>
  · apply forall₂_map_self
    intro u
    by_cases h : u.id = userId
    · exact ⟨by simp [agreesExceptStatus, h], fun hne => absurd h hne⟩
    · exact ⟨by simp [agreesExceptStatus, h], fun hne => by simp [h]⟩

/-- Witness for C10 at the concrete store: no partition other than
users changes when member 2 is approved. -/
theorem approve_reject_modify_only_status_witness :
    (approveUser stateOne 2).universities = stateOne.universities ∧
    (rejectUser stateOne 2).posts = stateOne.posts := by
  exact ⟨(approve_reject_modify_only_status stateOne 2).1.1,
    (approve_reject_modify_only_status stateOne 2).2.2.1⟩

/-- A whitespace-free text is left untouched by the replacement. -/
theorem collapseWsAux_id : ∀ l : List Char,
    (∀ c ∈ l, isJsWs c = false) → collapseWsAux false l = l := by
  intro l
  induction l with
  | nil => intro _; rfl
  | cons c t ih =>
    intro h
    have hc := h c (by simp)
    simp [collapseWsAux, hc, ih (fun d hd => h d (by simp [hd]))]

/-- One step of the replacement on a whitespace character. -/
theorem collapseWsAux_step_ws (p : Bool) (c : Char) (rest : List Char)
    (hc : isJsWs c = true) :
    collapseWsAux p (c :: rest) =
      (if p then collapseWsAux true rest else '_' :: collapseWsAux true rest) := by
  cases p <;> simp [collapseWsAux, hc]

/-- One step of the replacement on a non-whitespace character. -/
theorem collapseWsAux_step_nonws (p : Bool) (c : Char) (rest : List Char)
    (hc : isJsWs c = false) :
    collapseWsAux p (c :: rest) = c :: collapseWsAux false rest := by
  cases p <;> simp [collapseWsAux, hc]

/-- Inside a whitespace run every further whitespace character is
swallowed; the run ends at the first non-whitespace character. -/
theorem collapseWsAux_true_run : ∀ ws r : List Char,
    (∀ c ∈ ws, isJsWs c = true) →
    (∀ c, r.head? = some c → isJsWs c = false) →
    collapseWsAux true (ws ++ r) = collapseWsAux false r := by
  intro ws
  induction ws with
  | nil =>
    intro r _ hr
    cases r with
    | nil => rfl
    | cons c t =>
      have hc := hr c rfl
      simp [collapseWsAux, hc]
  | cons w ws' ih =>
    intro r hws hr
    have hw := hws w (by simp)
    rw [List.cons_append, collapseWsAux_step_ws true w (ws' ++ r) hw, if_pos rfl]
    exact ih r (fun c hc => hws c (by simp [hc])) hr

/-- A whole whitespace run at the front becomes one underscore. -/
theorem collapseWsAux_false_run (ws r : List Char) (hne : ws ≠ [])
    (hws : ∀ c ∈ ws, isJsWs c = true)
    (hr : ∀ c, r.head? = some c → isJsWs c = false) :
    collapseWsAux false (ws ++ r) = '_' :: collapseWsAux false r := by
  cases ws with
  | nil => exact absurd rfl hne
  | cons w ws' =>
    have hw := hws w (by simp)
    rw [List.cons_append, collapseWsAux_step_ws false w (ws' ++ r) hw, if_neg (by simp)]
    rw [collapseWsAux_true_run ws' r (fun c hc => hws c (by simp [hc])) hr]

/-- The replacement distributes over a split whose left part does not
end in whitespace. -/
theorem collapseWsAux_append : ∀ (a r : List Char) (p : Bool),
    a ≠ [] → (∀ c, a.getLast? = some c → isJsWs c = false) →
    collapseWsAux p (a ++ r) = collapseWsAux p a ++ collapseWsAux false r := by
  intro a
  induction a with
  | nil => intro r p hne _; exact absurd rfl hne
  | cons c a' ih =>
    intro r p hne hlast
    cases a' with
    | nil =>
      have hc := hlast c (by simp)
      cases p <;> simp [collapseWsAux, hc]
    | cons d a'' =>
      have hlast' : ∀ e, (d :: a'').getLast? = some e → isJsWs e = false := by
        intro e he
        exact hlast e (by rw [List.getLast?_cons_cons]; exact he)
      by_cases hc : isJsWs c = true
      · rw [List.cons_append, collapseWsAux_step_ws p c ((d :: a'') ++ r) hc,
          collapseWsAux_step_ws p c (d :: a'') hc]
        cases p
        · rw [if_neg (by simp), if_neg (by simp), ih r true (by simp) hlast',
            List.cons_append]
        · rw [if_pos rfl, if_pos rfl, ih r true (by simp) hlast']
      · rw [Bool.not_eq_true] at hc
        rw [List.cons_append, collapseWsAux_step_nonws p c ((d :: a'') ++ r) hc,
          collapseWsAux_step_nonws p c (d :: a'') hc, ih r false (by simp) hlast',
          List.cons_append]

/-- Each maximal whitespace run becomes exactly one underscore: a run
flanked by non-whitespace (or by the ends of the text) collapses to a
single underscore while the flanks are processed independently. -/
theorem collapseWsAux_split (a ws b : List Char) (hne : ws ≠ [])
    (hws : ∀ c ∈ ws, isJsWs c = true)
    (ha : ∀ c, a.getLast? = some c → isJsWs c = false)
    (hb : ∀ c, b.head? = some c → isJsWs c = false) :
    collapseWsAux false (a ++ ws ++ b) =
      collapseWsAux false a ++ '_' :: collapseWsAux false b := by
  cases a with
  | nil => simpa using collapseWsAux_false_run ws b hne hws hb
  | cons c a' =>
    rw [List.append_assoc,
      collapseWsAux_append (c :: a') (ws ++ b) false (by simp) ha,
      collapseWsAux_false_run ws b hne hws hb]

/-- C5: the slug a successful institution registration stores and
returns is the registration name lowercased with whitespace handled by
the global `/\s+/ → '_'` replacement, which (second and third
conjuncts) leaves whitespace-free text unchanged and turns every
maximal whitespace run into a single underscore. -/
theorem registration_slug_lowercased_underscored :
    (∀ (hash : String → String) (newId : Id) (unis : List University)
       (name email password : String) (st : List University) (tok : Token)
       (u : University),
       registerUniversity hash newId unis name email password = .ok st tok u →
       u.slug = slugOf name ∧
       slugOf name = ⟨collapseWsAux false (name.data.map Char.toLower)⟩ ∧ u ∈ st) ∧
    (∀ l : List Char, (∀ c ∈ l, isJsWs c = false) → collapseWsAux false l = l) ∧
    (∀ a ws b : List Char, ws ≠ [] → (∀ c ∈ ws, isJsWs c = true) →
       (∀ c, a.getLast? = some c → isJsWs c = false) →
       (∀ c, b.head? = some c → isJsWs c = false) →
       collapseWsAux false (a ++ ws ++ b) =
         collapseWsAux false a ++ '_' :: collapseWsAux false b) := by
  refine ⟨?_, collapseWsAux_id, collapseWsAux_split⟩
  intro hash newId unis name email password st tok u h
  unfold registerUniversity at h
  split at h
  · simp at h
  · split at h
    · simp at h
    · simp only [RegisterResult.ok.injEq] at h
      obtain ⟨h1, _, h3⟩ := h
      subst h1 h3
      exact ⟨rfl, rfl, by simp⟩

/-- Witness for C5: registering "My  Uni" stores the slug derived from
the name, and a concrete double-space run collapses to one
underscore. -/
theorem registration_slug_lowercased_underscored_witness :
    (uniMy.slug = slugOf "My  Uni" ∧
     slugOf "My  Uni" = ⟨collapseWsAux false ("My  Uni".data.map Char.toLower)⟩ ∧
     uniMy ∈ [uniMy]) ∧
    collapseWsAux false (['a'] ++ [' ', ' '] ++ ['b']) =
      collapseWsAux false ['a'] ++ '_' :: collapseWsAux false ['b'] := by
  constructor
  · exact registration_slug_lowercased_underscored.1 hashConcrete 1 [] "My  Uni"
      "u@e" "pw" [uniMy] (generateToken 1) uniMy (by decide)
  · exact registration_slug_lowercased_underscored.2.2 ['a'] [' ', ' '] ['b']
      (by decide) (by decide)
      (fun c hc => by simp at hc; subst hc; rfl)
      (fun c hc => by simp at hc; subst hc; rfl)

/-- C6: registering an institution whose email, or whose derived slug,
collides with a stored one never succeeds (no record is created), and a
successful registration preserves global uniqueness of institution
emails and slugs, so both stay unique across all operations. -/
theorem institution_email_slug_stay_unique (hash : String → String) (newId : Id)
    (unis : List University) (name email password : String) :
    ((∃ u ∈ unis, u.email = email ∨ u.slug = slugOf name) →
      ∀ st tok v, registerUniversity hash newId unis name email password ≠ .ok st tok v) ∧
    (unis.Pairwise (fun a b => a.email ≠ b.email) →
     unis.Pairwise (fun a b => a.slug ≠ b.slug) →
     ∀ st tok v, registerUniversity hash newId unis name email password = .ok st tok v →
       st.Pairwise (fun a b => a.email ≠ b.email) ∧
       st.Pairwise (fun a b => a.slug ≠ b.slug)) := by
  constructor
  · rintro ⟨u, hu, hor⟩ st tok v h
    unfold registerUniversity at h
    split at h
    · simp at h
    · split at h
      · simp at h
      · rename_i hconf
        apply hconf
        simp only [List.any_eq_true]
        refine ⟨u, hu, ?_⟩
        rcases hor with h1 | h1 <;> simp [h1]
  · intro hEmail hSlug st tok v h
    unfold registerUniversity at h
    split at h
    · simp at h
    · split at h
      · simp at h
      · rename_i hconf
        have hclear : ∀ u ∈ unis, u.email ≠ email ∧ u.slug ≠ slugOf name := by
          intro u hu
          constructor
          · intro he
            exact hconf (by simp only [List.any_eq_true]; exact ⟨u, hu, by simp [he]⟩)
          · intro hs
            exact hconf (by simp only [List.any_eq_true]; exact ⟨u, hu, by simp [hs]⟩)
        simp only [RegisterResult.ok.injEq] at h
        obtain ⟨h1, _, _⟩ := h
        subst h1
        constructor
        · rw [List.pairwise_append]
          exact ⟨hEmail, by simp, fun a ha b hb => by
            rw [List.mem_singleton.mp hb]; exact (hclear a ha).1⟩
        · rw [List.pairwise_append]
          exact ⟨hSlug, by simp, fun a ha b hb => by
            rw [List.mem_singleton.mp hb]; exact (hclear a ha).2⟩

/-- Witness for C6: with "My  Uni" already stored under email u@e, a
second registration reusing that email cannot succeed; and the store a
fresh registration creates has pairwise-distinct emails. -/
theorem institution_email_slug_stay_unique_witness :
    registerUniversity hashConcrete 2 [uniMy] "Other" "u@e" "pw"
      ≠ .ok [uniMy] (generateToken 2) uniMy ∧
    [uniMy].Pairwise (fun a b => a.email ≠ b.email) := by
  constructor
  · exact (institution_email_slug_stay_unique hashConcrete 2 [uniMy] "Other" "u@e" "pw").1
      ⟨uniMy, by simp, Or.inl rfl⟩ [uniMy] (generateToken 2) uniMy
  · exact ((institution_email_slug_stay_unique hashConcrete 1 [] "My  Uni" "u@e" "pw").2
      List.Pairwise.nil List.Pairwise.nil [uniMy] (generateToken 1) uniMy (by decide)).1

/-- Counterexample to C7 as stated: a present authorization header with
no second space-separated part ("sometoken" carries no space) is
answered 401 No token provided even though the header is not missing,
whatever the verifier would say. -/
theorem auth_no_token_despite_header_present :
    authMiddleware (fun _ => some 7) (some "sometoken") = AuthResult.noToken ∧
    (some "sometoken" : Option String) ≠ none := by
  exact ⟨by decide, by simp⟩

/-- C7 (amended): the gate answers 401 No token provided exactly when
the extraction `authorization?.split(' ')[1]` yields nothing or the
empty string (in particular whenever the header is missing), 401
Invalid token exactly when a nonempty token is extracted but fails
verification, and otherwise attaches the decoded account id and
proceeds. -/
theorem auth_gate_responses (verifyTok : String → Option Id) (header : Option String) :
    (authMiddleware verifyTok header = .noToken ↔
      (extractToken header = none ∨ extractToken header = some "")) ∧
    (authMiddleware verifyTok header = .invalidToken ↔
      ∃ t, extractToken header = some t ∧ t ≠ "" ∧ verifyTok t = none) ∧
    (∀ id, authMiddleware verifyTok header = .authenticated id ↔
      ∃ t, extractToken header = some t ∧ t ≠ "" ∧ verifyTok t = some id) ∧
    (header = none → extractToken header = none) := by
  cases hx : extractToken header with
  | none =>
    refine ⟨?_, ?_, ?_, fun _ => rfl⟩
    · simp [authMiddleware, hx]
    · simp [authMiddleware, hx]
    · intro id; simp [authMiddleware, hx]
  | some t =>
    have hnone : header = none → (some t : Option String) = none := by
      intro hh; rw [hh] at hx; simp [extractToken] at hx
    by_cases ht : t = ""
    · subst ht
      refine ⟨?_, ?_, ?_, hnone⟩
      · simp [authMiddleware, hx]
      · simp [authMiddleware, hx]
      · intro id; simp [authMiddleware, hx]
    · cases hv : verifyTok t with
      | none =>
        refine ⟨?_, ?_, ?_, hnone⟩
        · simp [authMiddleware, hx, ht, hv]
        · simp only [authMiddleware, hx, ht]
          constructor
          · intro _; exact ⟨t, rfl, ht, hv⟩
          · intro _; simp [hv]
        · intro id
          simp only [authMiddleware, hx]
          constructor
          · intro h; rw [if_neg ht, hv] at h; simp at h
          · rintro ⟨s, hs, hsne, hvs⟩
            rw [Option.some.injEq] at hs
            subst hs
            rw [hvs] at hv
            simp at hv
      | some uid =>
        refine ⟨?_, ?_, ?_, hnone⟩
        · simp [authMiddleware, hx, ht, hv]
        · simp only [authMiddleware, hx]
          constructor
          · intro h; rw [if_neg ht, hv] at h; simp at h
          · rintro ⟨s, hs, hsne, hvs⟩
            rw [Option.some.injEq] at hs
            subst hs
            rw [hvs] at hv
            simp at hv
        · intro id
          simp only [authMiddleware, hx]
          rw [if_neg ht, hv]
          constructor
          · intro h
            rw [AuthResult.authenticated.injEq] at h
            subst h
            exact ⟨t, rfl, ht, hv⟩
          · rintro ⟨s, hs, hsne, hvs⟩
            rw [Option.some.injEq] at hs
            subst hs
            rw [hvs] at hv
            rw [Option.some.injEq] at hv
            rw [hv]

/-- Witness for C7: a well-formed bearer header with the accepted token
authenticates as account 7. -/
theorem auth_gate_responses_witness :
    authMiddleware verifyTokConcrete (some "Bearer tok") = AuthResult.authenticated 7 := by
  exact ((auth_gate_responses verifyTokConcrete (some "Bearer tok")).2.2.1 7).mpr
    ⟨"tok", by decide, by decide, by decide⟩

/-- C8: every record the directory returns belongs to the requested
institution, has status approved, and satisfies every supplied
(nonempty) equality filter — graduation year compared after integer
parsing — and the result never holds more than 50 records. -/
theorem directory_approved_scoped_filtered_capped (users : List User)
    (universityId : Id) (q : DirectoryQuery) :
    (directorySearch users universityId q).length ≤ 50 ∧
    ∀ u, u ∈ directorySearch users universityId q →
      u.university = some universityId ∧ u.status = "approved" ∧
      (∀ s, q.graduationYear = some s → s ≠ "" →
        gradYearMatches s u.graduationYear = true) ∧
      (∀ s, q.currentCity = some s → s ≠ "" → u.currentCity = s) ∧
      (∀ s, q.company = some s → s ≠ "" → u.company = s) ∧
      (∀ s, q.designation = some s → s ≠ "" → u.designation = s) := by
  constructor
  · rw [directorySearch, List.length_take]
    exact min_le_left _ _
  · intro u hu
    have hmem : u ∈ users.filter (fun v => directoryFilter universityId q v) :=
      List.mem_of_mem_take hu
    have hf : directoryFilter universityId q u = true := (List.mem_filter.mp hmem).2
    unfold directoryFilter at hf
    simp only [Bool.and_eq_true] at hf
    obtain ⟨⟨⟨⟨⟨h1, h2⟩, h3⟩, h4⟩, h5⟩, h6⟩ := hf
    refine ⟨by simpa using h1, by simpa using h2, ?_, ?_, ?_, ?_⟩
    · intro s hs hne; rw [hs] at h3; simpa [hne] using h3
    · intro s hs hne; rw [hs] at h4; simpa [hne] using h4
    · intro s hs hne; rw [hs] at h5; simpa [hne] using h5
    · intro s hs hne; rw [hs] at h6; simpa [hne] using h6

/-- Witness for C8 at the concrete approved 2020 member: the record
returned for its institution satisfies scope, status and the parsed
year filter. -/
theorem directory_approved_scoped_filtered_capped_witness :
    uDir.university = some 9 ∧ uDir.status = "approved" ∧
    gradYearMatches "2020" uDir.graduationYear = true := by
  have h := (directory_approved_scoped_filtered_capped [uDir] 9 qDir).2 uDir (by decide)
  exact ⟨h.1, h.2.1, h.2.2.1 "2020" rfl (by decide)⟩

/-- Counterexample to C9 as stated: registering the same member twice
for the same workshop leaves that member twice in the attendees array
(`$push` appends unconditionally), so attendees is not a set. -/
theorem workshop_register_duplicate_attendee :
    (registerForWorkshop (registerForWorkshop [workshopOne] 1 5) 1 5).map
      Workshop.attendees = [[5, 5]] ∧ ¬ List.count 5 [5, 5] ≤ 1 := by
  exact ⟨by decide, by decide⟩

/-- C9 (amended): the attendees collection is a list, not a set: a
register operation by an authenticated member appends that member's id
to the targeted workshop's attendees list — making the member an
element of it — but repeated registrations keep appending, so an id can
occur more than once. -/
theorem workshop_register_appends (workshops : List Workshop)
    (workshopId userId : Id) (w : Workshop) (hw : w ∈ workshops)
    (hid : w.id = workshopId) :
    ({ w with attendees := w.attendees ++ [userId] } : Workshop) ∈
      registerForWorkshop workshops workshopId userId ∧
    userId ∈ ({ w with attendees := w.attendees ++ [userId] } : Workshop).attendees := by
  constructor
  · have hm := List.mem_map_of_mem
      (fun v : Workshop =>
        if v.id == workshopId then { v with attendees := v.attendees ++ [userId] } else v) hw
    simpa [registerForWorkshop, hid] using hm
  · simp

/-- Witness for C9 (amended): registering member 5 for the stored empty
workshop puts 5 into its attendees. -/
theorem workshop_register_appends_witness :
    ({ workshopOne with attendees := workshopOne.attendees ++ [5] } : Workshop) ∈
      registerForWorkshop [workshopOne] 1 5 ∧
    5 ∈ ({ workshopOne with attendees := workshopOne.attendees ++ [5] } : Workshop).attendees := by
  exact workshop_register_appends [workshopOne] 1 5 workshopOne (by simp) (by decide)

end AlumniPortal
